import Mathlib

/-!
Verification development for the auction browser client (src/app.js).

Each definition below is a shallow embedding of a function or handler of
app.js; amounts are in wei (Nat), signed deltas are Int, JS Sets are lists
with membership-checked insertion, and the async handlers are modelled as
pure state-transition functions.
-/

/-- Fixed minimum bid increment: ethers.utils.parseEther of 0.0004, in wei
(app.js lines 309 and 493). -/
def minIncrement : Nat := 400000000000000

/-- Minimum next bid as computed at app.js lines 310 and 494:
the JS expression currentBid ? currentBid.add(minIncrement) : minIncrement,
where currentBid is a BigNumber or undefined (modelled as Option Nat). -/
def nextMinBid (currentBid : Option Nat) : Nat :=
  match currentBid with
  | some b => b + minIncrement
  | none => minIncrement

/-- Outcome of the bid-modal submit handler: either a client-side error
status (no chain call) or a contribute chain write carrying a message and
an attached value. -/
inductive SubmitOutcome where
  | rejected (msg : String)
  | chainWrite (message : String) (value : Int)
deriving DecidableEq

/-- Shallow embedding of the submit handler installed at app.js lines
537-564: reject the message if it exceeds 256 characters, otherwise
compute amountToSend = bidAmount.sub(userFullBid) and call
contract.contribute(message, value := amountToSend).  There is no check
on the sign of amountToSend and no check against the minimum bid. -/
def contributeSubmit (message : String) (bidAmount userFullBid : Nat) : SubmitOutcome :=
  if message.length > 256 then
    SubmitOutcome.rejected "Message too long (max 256 characters)"
  else
    SubmitOutcome.chainWrite message ((bidAmount : Int) - (userFullBid : Int))

/-- Executable embedding of the JS String.prototype.trim used at app.js
line 255: drop whitespace from both ends of the character list. -/
def trimChars (l : List Char) : List Char :=
  ((l.dropWhile Char.isWhitespace).reverse.dropWhile Char.isWhitespace).reverse

/-- Trim on strings, via trimChars on the underlying character list. -/
def jsTrim (s : String) : String := String.mk (trimChars s.data)

/-- Outcome of the registration submit handler: a client-side error status
or a register chain write carrying the (trimmed) name. -/
inductive RegisterOutcome where
  | rejected (msg : String)
  | chainWrite (name : String)
deriving DecidableEq

/-- Shallow embedding of the register submit handler at app.js lines
254-280: trim the input, reject if empty, reject if longer than 32
characters, otherwise call contract.register(name). -/
def registerSubmit (input : String) : RegisterOutcome :=
  let name := jsTrim input
  if name = "" then RegisterOutcome.rejected "Please enter a name"
  else if name.length > 32 then RegisterOutcome.rejected "Name too long (max 32 characters)"
  else RegisterOutcome.chainWrite name

/-- C6: the minimum-bid computation is the pure function
nextMinBid = minIncrement when no current bid is set, and
currentBid + minIncrement otherwise (app.js lines 309-311 and 493-494). -/
theorem c6_next_min_bid :
    nextMinBid none = minIncrement ∧ ∀ b : Nat, nextMinBid (some b) = b + minIncrement :=
  ⟨rfl, fun _ => rfl⟩

/-- C1 counterexample: with current bid 100 the requested total
1000000000000000 wei exceeds nextMinBid, the ledger value
2000000000000000 exceeds the requested total, and the submit handler
still performs the contribute chain write with the negative attached
value instead of rejecting with InvalidAmount before the call. -/
theorem c1_counterexample :
    nextMinBid (some 100) < 1000000000000000 ∧
    contributeSubmit "gm" 1000000000000000 2000000000000000 =
      SubmitOutcome.chainWrite "gm" (-1000000000000000) := by
  exact ⟨by decide, by decide⟩

/-- C1 (amended): for every ledger value P and requested total T with an
in-range message, the amount attached to the contribute transaction is
exactly T - P, including when T - P is negative: no client-side
InvalidAmount rejection exists, the chain write is made regardless. -/
theorem c1_payment_delta (message : String) (bidAmount userFullBid : Nat)
    (hmsg : message.length ≤ 256) :
    contributeSubmit message bidAmount userFullBid =
      SubmitOutcome.chainWrite message ((bidAmount : Int) - (userFullBid : Int)) := by
  unfold contributeSubmit
  rw [if_neg (by omega)]

/-- Witness for c1_payment_delta at message gm, total 7, ledger 3. -/
theorem c1_witness :
    "gm".length ≤ 256 ∧ contributeSubmit "gm" 7 3 = SubmitOutcome.chainWrite "gm" 4 := by
  refine ⟨by decide, ?_⟩
  rw [c1_payment_delta "gm" 7 3 (by decide)]
  decide

/-- C5 counterexample: a requested total of 5 wei is far below
nextMinBid for current bid 1000, yet the submit handler performs the
contribute chain write: sub-minimum bids are not caught client-side. -/
theorem c5_counterexample :
    (5 : Nat) < nextMinBid (some 1000) ∧
    contributeSubmit "gn" 5 0 = SubmitOutcome.chainWrite "gn" 5 := by
  exact ⟨by decide, by decide⟩

/-- C5 (amended): oversized messages and empty or oversized registration
names are caught client-side with an error and no chain write; but
sub-minimum bid totals are not validated at submission: whenever the
message is in range the contribute chain write proceeds for any amount. -/
theorem c5_client_validation (message : String) (bidAmount userFullBid : Nat) (input : String) :
    (message.length > 256 →
      contributeSubmit message bidAmount userFullBid =
        SubmitOutcome.rejected "Message too long (max 256 characters)") ∧
    (jsTrim input = "" → registerSubmit input = RegisterOutcome.rejected "Please enter a name") ∧
    (jsTrim input ≠ "" → (jsTrim input).length > 32 →
      registerSubmit input = RegisterOutcome.rejected "Name too long (max 32 characters)") ∧
    (message.length ≤ 256 →
      contributeSubmit message bidAmount userFullBid =
        SubmitOutcome.chainWrite message ((bidAmount : Int) - (userFullBid : Int))) := by
  refine ⟨?_, ?_, ?_, ?_⟩
  · intro h
    unfold contributeSubmit
    rw [if_pos h]
  · intro h
    unfold registerSubmit
    simp only [h]
    rfl
  · intro h1 h2
    unfold registerSubmit
    rw [if_neg h1, if_pos h2]
  · intro h
    unfold contributeSubmit
    rw [if_neg (by omega)]

/-- Witness for c5_client_validation: a 33-character name is rejected
with no chain write. -/
theorem c5_witness :
    registerSubmit "abcdefghijklmnopqrstuvwxyz0123456" =
      RegisterOutcome.rejected "Name too long (max 32 characters)" :=
  (c5_client_validation "m" 1 0 "abcdefghijklmnopqrstuvwxyz0123456").2.2.1
    (by decide) (by decide)

/-- The NewBid event payload delivered to the listener installed at
app.js line 428: (bidder, amount, content, bidIndex), together with the
transaction hash of the on-chain event instance (available on the
ethers event object, the stable event identifier). -/
structure BidEvent where
  bidder : String
  amount : Nat
  content : String
  bidIndex : Nat
  txHash : String
deriving DecidableEq

/-- The module-level auction display state of app.js lines 18-21:
lastBidder, currentBid, lastMessage, each undefined at load (None). -/
structure AuctionState where
  lastBidder : Option String
  currentBid : Option Nat
  lastMessage : Option String
deriving DecidableEq

/-- Initial auction state: the globals are undefined at page load. -/
def auctionStateInit : AuctionState :=
  { lastBidder := none, currentBid := none, lastMessage := none }

/-- Shallow embedding of the NewBid listener body at app.js lines
428-436: it unconditionally overwrites lastBidder, currentBid and
lastMessage with the event payload.  It consults no dedup set and
ignores the transaction hash entirely. -/
def applyNewBid (_s : AuctionState) (e : BidEvent) : AuctionState :=
  { lastBidder := some e.bidder, currentBid := some e.amount, lastMessage := some e.content }

/-- The dataCache module state of app.js lines 7-13 (the unused data and
version fields are omitted); the JS Sets pendingUpdates and
processedTransactions are lists with membership-checked insertion. -/
structure DataCache where
  lastUpdate : Nat
  pendingUpdates : List Nat
  processedTransactions : List String
  isProcessing : Bool := false
deriving DecidableEq

/-- JS Set.add for numeric ids: inserting an existing element leaves the
set unchanged. -/
def setAddNat (s : List Nat) (x : Nat) : List Nat :=
  if x ∈ s then s else x :: s

/-- JS Set.add for transaction hashes: inserting an existing element
leaves the set unchanged. -/
def setAddStr (s : List String) (x : String) : List String :=
  if x ∈ s then s else x :: s

/-- Shallow embedding of the DataUpdated listener body at app.js lines
191-199: if the event's transaction hash was already processed, return
with no change; otherwise record the hash and enqueue the id. -/
def onDataUpdated (c : DataCache) (txHash : String) (id : Nat) : DataCache :=
  if txHash ∈ c.processedTransactions then c
  else
    { c with processedTransactions := setAddStr c.processedTransactions txHash,
             pendingUpdates := setAddNat c.pendingUpdates id }

/-- After handling a DataUpdated event its transaction hash is in the
processed set. -/
theorem mem_processed_onDataUpdated (c : DataCache) (h : String) (i : Nat) :
    h ∈ (onDataUpdated c h i).processedTransactions := by
  unfold onDataUpdated
  by_cases hm : h ∈ c.processedTransactions
  · rw [if_pos hm]
    exact hm
  · rw [if_neg hm]
    unfold setAddStr
    simp only [if_neg hm]
    exact List.mem_cons_self h c.processedTransactions

/-- C2 counterexample: the NewBid path performs no dedup keyed by the
stable event identifier.  The event with transaction hash 0xt1 is
applied, a newer event with hash 0xt2 is applied, then the 0xt1 event is
delivered again (same identifier): this second application is not a
no-op, it changes the state a second time. -/
theorem c2_counterexample :
    applyNewBid
      (applyNewBid
        (applyNewBid auctionStateInit
          { bidder := "0xaa", amount := 10, content := "hi", bidIndex := 0, txHash := "0xt1" })
        { bidder := "0xbb", amount := 20, content := "yo", bidIndex := 1, txHash := "0xt2" })
      { bidder := "0xaa", amount := 10, content := "hi", bidIndex := 0, txHash := "0xt1" } ≠
    applyNewBid
      (applyNewBid auctionStateInit
        { bidder := "0xaa", amount := 10, content := "hi", bidIndex := 0, txHash := "0xt1" })
      { bidder := "0xbb", amount := 20, content := "yo", bidIndex := 1, txHash := "0xt2" } := by
  decide

/-- C2 (amended): applying the same NewBid event twice in immediate
succession changes the state at most once, because the handler is an
unconditional overwrite (value-level idempotence, not identifier dedup);
the transaction-hash dedup exists only on the DataUpdated path, where a
delivery whose hash is already processed is a no-op, so the second of two
identical deliveries never changes the cache. -/
theorem c2_idempotent_application (s : AuctionState) (e : BidEvent)
    (c : DataCache) (h : String) (i : Nat) :
    (applyNewBid (applyNewBid s e) e = applyNewBid s e) ∧
    (h ∈ c.processedTransactions → onDataUpdated c h i = c) ∧
    (onDataUpdated (onDataUpdated c h i) h i = onDataUpdated c h i) := by
  refine ⟨rfl, ?_, ?_⟩
  · intro hmem
    unfold onDataUpdated
    rw [if_pos hmem]
  · have hmem := mem_processed_onDataUpdated c h i
    set d := onDataUpdated c h i with hd
    unfold onDataUpdated
    rw [if_pos hmem]

/-- Witness for c2_idempotent_application: a cache that already
processed hash 0xt9 is unchanged by a redelivery of that hash. -/
theorem c2_witness :
    onDataUpdated
      { lastUpdate := 0, pendingUpdates := [4], processedTransactions := ["0xt9"] } "0xt9" 3 =
      { lastUpdate := 0, pendingUpdates := [4], processedTransactions := ["0xt9"] } :=
  (c2_idempotent_application auctionStateInit
    { bidder := "a", amount := 0, content := "m", bidIndex := 0, txHash := "t" }
    { lastUpdate := 0, pendingUpdates := [4], processedTransactions := ["0xt9"] }
    "0xt9" 3).2.1 (by decide)

/-- C3 counterexample: after the record at index 1 with amount 10 is
applied, applying the older record at index 0 with amount 5 regresses
currentBid from 10 to 5 (and the bidder and message to the older
record): the store does regress to an older record. -/
theorem c3_counterexample :
    (applyNewBid
      (applyNewBid auctionStateInit
        { bidder := "0xcc", amount := 10, content := "new", bidIndex := 1, txHash := "0xt3" })
      { bidder := "0xdd", amount := 5, content := "old", bidIndex := 0, txHash := "0xt4" }) =
      { lastBidder := some "0xdd", currentBid := some 5, lastMessage := some "old" } ∧
    (applyNewBid auctionStateInit
      { bidder := "0xcc", amount := 10, content := "new", bidIndex := 1, txHash := "0xt3" }).currentBid
      = some 10 := by
  exact ⟨rfl, rfl⟩

/-- C3 (amended): each apply unconditionally overwrites the current-bid
projection with the applied record's values, so currentBid after an
apply equals the record's amount: it is non-decreasing precisely when
the applied amounts are non-decreasing, and a record applied after a
higher-amount record regresses the projection regardless of index. -/
theorem c3_apply_overwrites (s : AuctionState) (e : BidEvent) :
    ((applyNewBid s e).currentBid = some e.amount ∧
     (applyNewBid s e).lastBidder = some e.bidder ∧
     (applyNewBid s e).lastMessage = some e.content) ∧
    (∀ b : Nat, s.currentBid = some b → b ≤ e.amount →
      ∀ b2 : Nat, (applyNewBid s e).currentBid = some b2 → b ≤ b2) := by
  refine ⟨⟨rfl, rfl, rfl⟩, ?_⟩
  intro b _hb hle b2 hb2
  have he : some e.amount = some b2 := hb2
  have : e.amount = b2 := Option.some.inj he
  omega

/-- Witness for c3_apply_overwrites: from a state with currentBid 2,
applying a record of amount 7 keeps currentBid monotone. -/
theorem c3_witness :
    (2 : Nat) ≤ 7 ∧
    (applyNewBid { lastBidder := none, currentBid := some 2, lastMessage := none }
      { bidder := "0xee", amount := 7, content := "w", bidIndex := 2, txHash := "0xt5" }).currentBid
      = some 7 :=
  ⟨(c3_apply_overwrites
      { lastBidder := none, currentBid := some 2, lastMessage := none }
      { bidder := "0xee", amount := 7, content := "w", bidIndex := 2, txHash := "0xt5" }).2
      2 rfl (by decide) 7 rfl,
   (c3_apply_overwrites
      { lastBidder := none, currentBid := some 2, lastMessage := none }
      { bidder := "0xee", amount := 7, content := "w", bidIndex := 2, txHash := "0xt5" }).1.1⟩

/-- Shallow embedding of the probe loop at app.js lines 404-412, run
against a mocked chain on which bidHistory at index i succeeds exactly
when i < k: starting from latestIndex (initially 0), probe
latestIndex + 1, advance while the probe succeeds, stop at the first
failure.  Returns the final latestIndex and the number of bidHistory
calls the loop issued (every probe counts, including the failing one). -/
def scanAux (k latestIndex probes : Nat) : Nat × Nat :=
  if latestIndex + 1 < k then scanAux k (latestIndex + 1) (probes + 1)
  else (latestIndex, probes + 1)
termination_by k - latestIndex
decreasing_by omega

/-- Shallow embedding of the whole catch-up read at app.js lines
403-421: run the probe loop from latestIndex 0, then (the guard
latestIndex >= 0 always holds) fetch bidHistory(latestIndex), one more
read.  Returns the applied index and the total number of bidHistory
calls. -/
def catchUpScan (k : Nat) : Nat × Nat :=
  ((scanAux k 0 0).1, (scanAux k 0 0).2 + 1)

/-- A bidHistory record: (sender, amount, content). -/
structure BidRecord where
  sender : String
  amount : Nat
  content : String
deriving DecidableEq

/-- The assignment block at app.js lines 415-418: the fetched record
becomes the current auction state. -/
def applyLatestBid (r : BidRecord) : AuctionState :=
  { lastBidder := some r.sender, currentBid := some r.amount, lastMessage := some r.content }

/-- The catch-up portion of initializeAuctionData against a chain whose
records are given by bids and whose valid indices are 0..k-1: the state
it installs and the total number of bidHistory reads it issues. -/
def catchUpState (bids : Nat → BidRecord) (k : Nat) : AuctionState × Nat :=
  (applyLatestBid (bids (catchUpScan k).1), (catchUpScan k).2)

/-- The probe loop started below index li + d + 1 ends at index li + d
after d + 1 probes beyond the starting point. -/
theorem scanAux_spec : ∀ (d li p : Nat), scanAux (li + d + 1) li p = (li + d, p + d + 1) := by
  intro d
  induction d with
  | zero =>
    intro li p
    unfold scanAux
    rw [if_neg (by omega)]
    simp
  | succ d ih =>
    intro li p
    unfold scanAux
    rw [if_pos (by omega)]
    have h1 : li + (d + 1) + 1 = (li + 1) + d + 1 := by omega
    rw [h1, ih (li + 1) (p + 1)]
    rw [Prod.mk.injEq]
    omega

/-- C4: on a chain where bid indices 0..k-1 exist and index k does not
(k >= 1), the startup scan terminates with latestIndex = k - 1, applies
exactly the record at index k - 1 as the current state, and issues
exactly k + 1 bidHistory probes in total. -/
theorem c4_catch_up_scan (bids : Nat → BidRecord) (k : Nat) (hk : 1 ≤ k) :
    catchUpScan k = (k - 1, k + 1) ∧
    catchUpState bids k = (applyLatestBid (bids (k - 1)), k + 1) := by
  have h := scanAux_spec (k - 1) 0 0
  have hk1 : 0 + (k - 1) + 1 = k := by omega
  rw [hk1] at h
  have hscan : catchUpScan k = (k - 1, k + 1) := by
    unfold catchUpScan
    rw [h]
    show (0 + (k - 1), k + 1) = (k - 1, k + 1)
    rw [Prod.mk.injEq]
    omega
  refine ⟨hscan, ?_⟩
  unfold catchUpState
  rw [hscan]

/-- Witness for c4_catch_up_scan at k = 3: probes at indices 1, 2, 3
(the last fails), one fetch at index 2, four reads in total. -/
theorem c4_witness :
    catchUpScan 3 = (2, 4) ∧
    catchUpState (fun _ => { sender := "0xff", amount := 9, content := "m9" }) 3 =
      (applyLatestBid { sender := "0xff", amount := 9, content := "m9" }, 4) :=
  c4_catch_up_scan (fun _ => { sender := "0xff", amount := 9, content := "m9" }) 3 (by decide)

/-- Two-digit zero padding, the JS padStart(2, zero) at app.js line 462. -/
def pad2 (n : Nat) : String :=
  if n < 10 then "0" ++ toString n else toString n

/-- The running-timer text hh:mm:ss derived from the remaining seconds,
app.js lines 457-462. -/
def formatHMS (remaining : Nat) : String :=
  pad2 (remaining / 3600) ++ ":" ++ pad2 ((remaining % 3600) / 60) ++ ":" ++ pad2 (remaining % 60)

/-- What one timer tick writes: the timer text, and whether this tick
disables the contribute button (the ended branch does, the running
branch leaves the button untouched). -/
structure TickResult where
  timerText : String
  disableContribute : Bool
deriving DecidableEq

/-- The terminal tick output of app.js lines 451-455. -/
def auctionEndedTick : TickResult :=
  { timerText := "AUCTION ENDED", disableContribute := true }

/-- Shallow embedding of updateTimer at app.js lines 446-463: remaining
is endTime - now; when it is non-positive the tick reports AUCTION ENDED
and disables the contribute button, otherwise it reports the running
countdown hh:mm:ss. -/
def updateTimer (endTime now : Nat) : TickResult :=
  if (endTime : Int) - (now : Int) ≤ 0 then
    { timerText := "AUCTION ENDED", disableContribute := true }
  else
    { timerText := formatHMS (endTime - now), disableContribute := false }

/-- C7: with a fixed deadline and non-decreasing wall-clock samples,
once a tick computes remaining <= 0 it reports the terminal
AUCTION ENDED output (disabling bid submission), and every subsequent
tick reports the same terminal output, never the running countdown. -/
theorem c7_countdown_terminal (endTime : Nat) (sample : Nat → Nat)
    (hmono : ∀ i j : Nat, i ≤ j → sample i ≤ sample j)
    (i j : Nat) (hij : i ≤ j)
    (hi : updateTimer endTime (sample i) = auctionEndedTick) :
    updateTimer endTime (sample j) = auctionEndedTick := by
  have hcond : (endTime : Int) - (sample i : Int) ≤ 0 := by
    by_contra hneg
    unfold updateTimer at hi
    rw [if_neg hneg] at hi
    unfold auctionEndedTick at hi
    injection hi with h1 h2
    exact Bool.noConfusion h2
  have hmono2 : sample i ≤ sample j := hmono i j hij
  have hcondj : (endTime : Int) - (sample j : Int) ≤ 0 := by omega
  unfold updateTimer auctionEndedTick
  rw [if_pos hcondj]

/-- Witness for c7_countdown_terminal: deadline 10, clock samples
n + 10; the tick at time 10 is terminal, so the tick at time 13 is. -/
theorem c7_witness : updateTimer 10 13 = auctionEndedTick :=
  c7_countdown_terminal 10 (fun n => n + 10) (fun i j h => by dsimp only; omega) 0 3 (by omega) (by decide)

/-- An observable step of the drain loop of processDataQueue (app.js
lines 160-185): fetching one batch of pending ids, or pausing for a
number of milliseconds. -/
inductive DrainEv where
  | fetchBatch (items : List Nat)
  | delay (ms : Nat)
deriving DecidableEq

/-- The reentrancy guard at the top of processDataQueue (app.js lines
161-164): if isProcessing is set the call returns at once doing nothing
(second component false); otherwise the flag is set and a drain starts
(second component true). -/
def processDataQueueEntry (c : DataCache) : DataCache × Bool :=
  if c.isProcessing then (c, false)
  else ({ c with isProcessing := true }, true)

/-- Shallow embedding of the inner batch loop at app.js lines 170-177,
for batch size B (CONFIG.BATCH_SIZE is defined outside src; the spec
calls it the configurable size B): process the snapshot in slices of B,
sleeping 100 ms between consecutive batches but not after the last. -/
def processBatches (B : Nat) (hB : 0 < B) (updates : List Nat) : List DrainEv :=
  if updates.length = 0 then []
  else if updates.length ≤ B then [DrainEv.fetchBatch updates]
  else DrainEv.fetchBatch (updates.take B) :: DrainEv.delay 100 ::
       processBatches B hB (updates.drop B)
termination_by updates.length
decreasing_by simp [List.length_drop]; omega

/-- The snapshot split into consecutive slices of at most B elements:
the batches the inner loop fetches, without the delays. -/
def chunkList (B : Nat) (hB : 0 < B) (l : List Nat) : List (List Nat) :=
  if l.length = 0 then []
  else if l.length ≤ B then [l]
  else l.take B :: chunkList B hB (l.drop B)
termination_by l.length
decreasing_by simp [List.length_drop]; omega

/-- Concatenation of a list of batches. -/
def joinAll : List (List Nat) → List Nat
  | [] => []
  | c :: cs => c ++ joinAll cs

/-- Shallow embedding of the outer while loop of processDataQueue
(app.js lines 166-178) plus the restart in the finally block (lines
180-184): each round snapshots and clears the pending set and runs the
batch loop on the snapshot; ids that arrive while round r is processing
(arrivals r) become the pending set of the next round; the loop ends
when the pending set is empty. -/
def drainRounds (B : Nat) (hB : 0 < B) : List Nat → List (List Nat) → List DrainEv
  | pending, [] => if pending.length = 0 then [] else processBatches B hB pending
  | pending, a :: rest =>
    if pending.length = 0 then [] else processBatches B hB pending ++ drainRounds B hB a rest

/-- The batch loop trace is exactly the snapshot chunks interleaved with
single 100 ms delays. -/
theorem processBatches_eq_chunks (B : Nat) (hB : 0 < B) (l : List Nat) :
    processBatches B hB l =
      List.intersperse (DrainEv.delay 100) ((chunkList B hB l).map DrainEv.fetchBatch) := by
  by_cases h0 : l.length = 0
  · unfold processBatches chunkList
    rw [if_pos h0, if_pos h0]
    rfl
  · by_cases hle : l.length ≤ B
    · unfold processBatches chunkList
      rw [if_neg h0, if_pos hle, if_neg h0, if_pos hle]
      rfl
    · have hrec := processBatches_eq_chunks B hB (l.drop B)
      have hne : chunkList B hB (l.drop B) ≠ [] := by
        unfold chunkList
        by_cases hd0 : (l.drop B).length = 0
        · exfalso
          rw [List.length_drop] at hd0
          omega
        · rw [if_neg hd0]
          by_cases hdle : (l.drop B).length ≤ B
          · rw [if_pos hdle]
            simp
          · rw [if_neg hdle]
            simp
      obtain ⟨c, cs, hcc⟩ := List.exists_cons_of_ne_nil hne
      unfold processBatches chunkList
      rw [if_neg h0, if_neg hle, if_neg h0, if_neg hle]
      rw [hrec, hcc]
      rfl
termination_by l.length
decreasing_by simp [List.length_drop]; omega

/-- The chunks concatenate back to exactly the snapshot: a batch holds
only snapshot items. -/
theorem chunkList_join (B : Nat) (hB : 0 < B) (l : List Nat) :
    joinAll (chunkList B hB l) = l := by
  by_cases h0 : l.length = 0
  · unfold chunkList
    rw [if_pos h0]
    have hnil : l = [] := List.length_eq_zero.mp h0
    rw [hnil]
    rfl
  · by_cases hle : l.length ≤ B
    · unfold chunkList
      rw [if_neg h0, if_pos hle]
      show l ++ joinAll [] = l
      simp [joinAll]
    · have hrec := chunkList_join B hB (l.drop B)
      unfold chunkList
      rw [if_neg h0, if_neg hle]
      show l.take B ++ joinAll (chunkList B hB (l.drop B)) = l
      rw [hrec]
      exact List.take_append_drop B l
termination_by l.length
decreasing_by simp [List.length_drop]; omega

/-- Every chunk has at most B elements. -/
theorem chunkList_size (B : Nat) (hB : 0 < B) (l : List Nat) :
    ∀ c ∈ chunkList B hB l, c.length ≤ B := by
  by_cases h0 : l.length = 0
  · unfold chunkList
    rw [if_pos h0]
    intro c hc
    exact absurd hc (List.not_mem_nil c)
  · by_cases hle : l.length ≤ B
    · unfold chunkList
      rw [if_neg h0, if_pos hle]
      intro c hc
      have hcl : c = l := by simpa using hc
      rw [hcl]
      exact hle
    · have hrec := chunkList_size B hB (l.drop B)
      unfold chunkList
      rw [if_neg h0, if_neg hle]
      intro c hc
      rcases List.mem_cons.mp hc with h | h
      · rw [h, List.length_take]
        exact Nat.min_le_left B l.length
      · exact hrec c h
termination_by l.length
decreasing_by simp [List.length_drop]; omega

/-- C8: (i) a call to processDataQueue while a drain is already running
returns at once, leaving the cache untouched and starting no second
drain; (ii) within a drain each round fetches the snapshot in batches of
size at most B with exactly one fixed 100 ms delay between consecutive
batches; (iii) a round's batches contain exactly the snapshot items; and
(iv) ids that arrive during a round are processed only after all batches
of the current round, never interleaved into it. -/
theorem c8_drain_loop (B : Nat) (hB : 0 < B) (c : DataCache) (l p a : List Nat)
    (rest : List (List Nat)) (hproc : c.isProcessing = true) (hp : p ≠ []) :
    processDataQueueEntry c = (c, false) ∧
    processBatches B hB l =
      List.intersperse (DrainEv.delay 100) ((chunkList B hB l).map DrainEv.fetchBatch) ∧
    (∀ ch ∈ chunkList B hB l, ch.length ≤ B) ∧
    joinAll (chunkList B hB l) = l ∧
    drainRounds B hB p (a :: rest) = processBatches B hB p ++ drainRounds B hB a rest := by
  refine ⟨?_, processBatches_eq_chunks B hB l, chunkList_size B hB l,
    chunkList_join B hB l, ?_⟩
  · unfold processDataQueueEntry
    rw [if_pos hproc]
  · show (if p.length = 0 then [] else processBatches B hB p ++ drainRounds B hB a rest) =
      processBatches B hB p ++ drainRounds B hB a rest
    rw [if_neg (by simpa using hp)]

/-- Witness for c8_drain_loop at B = 10, a busy cache and concrete
snapshots. -/
theorem c8_witness :
    processDataQueueEntry
      { lastUpdate := 0, pendingUpdates := [7], processedTransactions := [],
        isProcessing := true } =
      ({ lastUpdate := 0, pendingUpdates := [7], processedTransactions := [],
          isProcessing := true }, false) :=
  (c8_drain_loop 10 (by decide)
    { lastUpdate := 0, pendingUpdates := [7], processedTransactions := [],
      isProcessing := true }
    [1, 2, 3] [5] [6] [] rfl (by decide)).1

/-- The write operations app.js ever performs on dataCache: the
DataUpdated handler (lines 192-197), the pending-set clear in the drain
loop (line 168), and the isProcessing flag writes (lines 164 and 180).
No operation in the file writes dataCache.lastUpdate. -/
inductive CacheOp where
  | dataUpdated (txHash : String) (id : Nat)
  | clearPending
  | setProcessing (b : Bool)

/-- Apply one dataCache write operation. -/
def applyCacheOp (c : DataCache) (op : CacheOp) : DataCache :=
  match op with
  | CacheOp.dataUpdated h i => onDataUpdated c h i
  | CacheOp.clearPending => { c with pendingUpdates := [] }
  | CacheOp.setProcessing b => { c with isProcessing := b }

/-- The dataCache initializer at app.js lines 7-13: lastUpdate starts
at 0. -/
def initialDataCache : DataCache :=
  { lastUpdate := 0, pendingUpdates := [], processedTransactions := [], isProcessing := false }

/-- The periodic-update guard at app.js line 376: the tick runs
initializeAuctionData exactly when now - lastUpdate > CACHE_DURATION
(CONFIG.CACHE_DURATION is defined outside src and is a parameter
here). -/
def periodicUpdateRuns (cacheDuration now lastUpdate : Nat) : Bool :=
  decide (now - lastUpdate > cacheDuration)

/-- No single cache operation changes lastUpdate. -/
theorem applyCacheOp_lastUpdate (c : DataCache) (op : CacheOp) :
    (applyCacheOp c op).lastUpdate = c.lastUpdate := by
  cases op with
  | dataUpdated h i =>
    show (onDataUpdated c h i).lastUpdate = c.lastUpdate
    unfold onDataUpdated
    split
    · rfl
    · rfl
  | clearPending => rfl
  | setProcessing b => rfl

/-- No sequence of cache operations changes lastUpdate. -/
theorem foldl_applyCacheOp_lastUpdate :
    ∀ (ops : List CacheOp) (c : DataCache),
      (List.foldl applyCacheOp c ops).lastUpdate = c.lastUpdate := by
  intro ops
  induction ops with
  | nil => intro c; rfl
  | cons op ops ih =>
    intro c
    show (List.foldl applyCacheOp (applyCacheOp c op) ops).lastUpdate = c.lastUpdate
    rw [ih (applyCacheOp c op), applyCacheOp_lastUpdate]

/-- C9: the staleness guard is vacuous.  dataCache.lastUpdate starts at
0 and no operation the program performs on the cache ever writes it, so
on every tick whose wall-clock time exceeds CACHE_DURATION the guard
now - lastUpdate > CACHE_DURATION holds and the full re-initialization
runs, regardless of cache freshness. -/
theorem c9_stale_guard_vacuous (ops : List CacheOp) (cacheDuration now : Nat)
    (hnow : cacheDuration < now) :
    (List.foldl applyCacheOp initialDataCache ops).lastUpdate = 0 ∧
    periodicUpdateRuns cacheDuration now
      (List.foldl applyCacheOp initialDataCache ops).lastUpdate = true := by
  have hlu : (List.foldl applyCacheOp initialDataCache ops).lastUpdate = 0 :=
    foldl_applyCacheOp_lastUpdate ops initialDataCache
  refine ⟨hlu, ?_⟩
  rw [hlu]
  unfold periodicUpdateRuns
  simp only [decide_eq_true_eq]
  omega

/-- Witness for c9_stale_guard_vacuous after a representative operation
sequence, with CACHE_DURATION 5 and clock 100. -/
theorem c9_witness :
    (List.foldl applyCacheOp initialDataCache
      [CacheOp.dataUpdated "0xw" 1, CacheOp.setProcessing true, CacheOp.clearPending,
        CacheOp.setProcessing false]).lastUpdate = 0 ∧
    periodicUpdateRuns 5 100
      (List.foldl applyCacheOp initialDataCache
        [CacheOp.dataUpdated "0xw" 1, CacheOp.setProcessing true, CacheOp.clearPending,
          CacheOp.setProcessing false]).lastUpdate = true :=
  c9_stale_guard_vacuous
    [CacheOp.dataUpdated "0xw" 1, CacheOp.setProcessing true, CacheOp.clearPending,
      CacheOp.setProcessing false] 5 100 (by decide)

/-- The ethers removeAllListeners(eventName) call: drop every
registration for that event name from the listener registry (modelled as
the list of event names of registered handlers, in order). -/
def removeAllListeners (eventName : String) : List String → List String
  | [] => []
  | n :: rest =>
    if n = eventName then removeAllListeners eventName rest
    else n :: removeAllListeners eventName rest

/-- The ethers contract.on(eventName, handler) call: append one
registration. -/
def contractOn (eventName : String) (ls : List String) : List String :=
  ls ++ [eventName]

/-- The subscription effect of setupEventListener (app.js lines
187-201): removeAllListeners for DataUpdated, then contract.on for
DataUpdated. -/
def setupEventListenerSubs (ls : List String) : List String :=
  contractOn "DataUpdated" (removeAllListeners "DataUpdated" ls)

/-- The subscription effect of initializeAuctionData (app.js lines
427-436): removeAllListeners for NewBid, then contract.on for NewBid. -/
def newBidListenerSubs (ls : List String) : List String :=
  contractOn "NewBid" (removeAllListeners "NewBid" ls)

/-- Number of handlers registered for one event name. -/
def countListeners (eventName : String) : List String → Nat
  | [] => 0
  | n :: rest => (if n = eventName then 1 else 0) + countListeners eventName rest

/-- The re-initialization calls that touch contract event listeners. -/
inductive InitOp where
  | setupListener
  | auctionInit

/-- Apply one re-initialization to the listener registry. -/
def applyInitOp (ls : List String) (op : InitOp) : List String :=
  match op with
  | InitOp.setupListener => setupEventListenerSubs ls
  | InitOp.auctionInit => newBidListenerSubs ls

/-- removeAllListeners removes every registration of its own event. -/
theorem countListeners_removeAll_self (e : String) :
    ∀ ls : List String, countListeners e (removeAllListeners e ls) = 0 := by
  intro ls
  induction ls with
  | nil => rfl
  | cons n rest ih =>
    show countListeners e (if n = e then removeAllListeners e rest
      else n :: removeAllListeners e rest) = 0
    by_cases hn : n = e
    · rw [if_pos hn]
      exact ih
    · rw [if_neg hn]
      show (if n = e then 1 else 0) + countListeners e (removeAllListeners e rest) = 0
      rw [if_neg hn, ih]

/-- removeAllListeners for one event leaves the registrations of any
other event unchanged. -/
theorem countListeners_removeAll_other (e e2 : String) (hne : e ≠ e2) :
    ∀ ls : List String, countListeners e (removeAllListeners e2 ls) = countListeners e ls := by
  intro ls
  induction ls with
  | nil => rfl
  | cons n rest ih =>
    show countListeners e (if n = e2 then removeAllListeners e2 rest
      else n :: removeAllListeners e2 rest) =
      (if n = e then 1 else 0) + countListeners e rest
    by_cases hn : n = e2
    · rw [if_pos hn, ih, if_neg (by rw [hn]; exact fun h => hne h.symm)]
      omega
    · rw [if_neg hn]
      show (if n = e then 1 else 0) + countListeners e (removeAllListeners e2 rest) =
        (if n = e then 1 else 0) + countListeners e rest
      rw [ih]

/-- Counting over an appended single registration. -/
theorem countListeners_append_one (e x : String) :
    ∀ ls : List String,
      countListeners e (ls ++ [x]) = countListeners e ls + (if x = e then 1 else 0) := by
  intro ls
  induction ls with
  | nil =>
    show (if x = e then 1 else 0) + 0 = 0 + (if x = e then 1 else 0)
    omega
  | cons n rest ih =>
    show (if n = e then 1 else 0) + countListeners e (rest ++ [x]) =
      (if n = e then 1 else 0) + countListeners e rest + (if x = e then 1 else 0)
    rw [ih]
    omega

/-- Any sequence of re-initializations keeps at most one handler per
contract event. -/
theorem countListeners_foldl_le_one :
    ∀ (ops : List InitOp) (ls : List String),
      countListeners "NewBid" ls ≤ 1 → countListeners "DataUpdated" ls ≤ 1 →
      countListeners "NewBid" (List.foldl applyInitOp ls ops) ≤ 1 ∧
      countListeners "DataUpdated" (List.foldl applyInitOp ls ops) ≤ 1 := by
  intro ops
  induction ops with
  | nil => intro ls h1 h2; exact ⟨h1, h2⟩
  | cons op ops ih =>
    intro ls h1 h2
    show countListeners "NewBid" (List.foldl applyInitOp (applyInitOp ls op) ops) ≤ 1 ∧
      countListeners "DataUpdated" (List.foldl applyInitOp (applyInitOp ls op) ops) ≤ 1
    apply ih
    · cases op with
      | setupListener =>
        show countListeners "NewBid" (contractOn "DataUpdated"
          (removeAllListeners "DataUpdated" ls)) ≤ 1
        unfold contractOn
        rw [countListeners_append_one,
          countListeners_removeAll_other "NewBid" "DataUpdated" (by decide) ls]
        have : (if "DataUpdated" = "NewBid" then 1 else 0) = 0 := by decide
        omega
      | auctionInit =>
        show countListeners "NewBid" (contractOn "NewBid"
          (removeAllListeners "NewBid" ls)) ≤ 1
        unfold contractOn
        rw [countListeners_append_one, countListeners_removeAll_self "NewBid" ls]
        have : (if "NewBid" = "NewBid" then 1 else 0) = 1 := by decide
        omega
    · cases op with
      | setupListener =>
        show countListeners "DataUpdated" (contractOn "DataUpdated"
          (removeAllListeners "DataUpdated" ls)) ≤ 1
        unfold contractOn
        rw [countListeners_append_one, countListeners_removeAll_self "DataUpdated" ls]
        have : (if "DataUpdated" = "DataUpdated" then 1 else 0) = 1 := by decide
        omega
      | auctionInit =>
        show countListeners "DataUpdated" (contractOn "NewBid"
          (removeAllListeners "NewBid" ls)) ≤ 1
        unfold contractOn
        rw [countListeners_append_one,
          countListeners_removeAll_other "DataUpdated" "NewBid" (by decide) ls]
        have : (if "NewBid" = "DataUpdated" then 1 else 0) = 0 := by decide
        omega

/-- C10: every subscription to a contract event is immediately preceded
by removal of all listeners for that event name, so after either
registration site exactly one handler is registered for its event, and
no matter how many times initialization or re-initialization runs
(starting from the empty registry at page load) at most one handler is
registered per event, hence each delivered event invokes its handler at
most once per delivery. -/
theorem c10_single_subscription (ls : List String) (ops : List InitOp) :
    countListeners "DataUpdated" (setupEventListenerSubs ls) = 1 ∧
    countListeners "NewBid" (newBidListenerSubs ls) = 1 ∧
    countListeners "NewBid" (List.foldl applyInitOp [] ops) ≤ 1 ∧
    countListeners "DataUpdated" (List.foldl applyInitOp [] ops) ≤ 1 := by
  refine ⟨?_, ?_, ?_⟩
  · unfold setupEventListenerSubs contractOn
    rw [countListeners_append_one, countListeners_removeAll_self "DataUpdated" ls]
    decide
  · unfold newBidListenerSubs contractOn
    rw [countListeners_append_one, countListeners_removeAll_self "NewBid" ls]
    decide
  · exact countListeners_foldl_le_one ops [] (by decide) (by decide)
